import Mathlib

set_option maxHeartbeats 1000000

/-!
Shallow embedding of the Polar network orchestration core.

The embedding covers:
* the topology data model (`Network`, `BitcoinNode`, `LightningNode`, `NetworksFile`),
  modelled from the spec (the `shared/types` module is not part of the inspected
  sources; `types.ts` declaring `Network`/`NetworksFile` is);
* the backend state-sync store model (`bitcoind.ts`): `getNetworkBackendId`,
  `removeNode`, `setInfo`, `getInfo`, `mine`;
* the lifecycle controller (`DockerService`): `execute`, `getImages`,
  `saveComposeFile`, `startNode`, `saveNetworks`, `loadNetworks`;
* the persisted-file round trip through a JSON abstract syntax tree.

External collaborators (the container runtime, the filesystem, the bitcoind RPC
service) are modelled as explicit environment records of response functions, and
stateful store actions as explicit state-passing functions.
-/

/-- Node/network lifecycle status, modelled from the spec (§4.2 state machine);
the `shared/types` numeric enum declares the states in this order. -/
inductive Status where
  | Starting
  | Started
  | Stopping
  | Stopped
  | Error
  deriving DecidableEq, Repr

/-- Chain info returned by the backend RPC; the store treats it opaquely
(only `blocks` is read by the inspected UI source). -/
structure ChainInfo where
  blocks : Nat
  bestBlockHash : String
  deriving DecidableEq, Repr

/-- Wallet info returned by the backend RPC; treated opaquely by the store. -/
structure WalletInfo where
  balance : Int
  deriving DecidableEq, Repr

/-- Modelled from the spec: bitcoin backend implementation tags. -/
inductive BitcoinImplementation where
  | bitcoind
  | btcd
  deriving DecidableEq, Repr

/-- Modelled from the spec: the closed set of Lightning implementation tags
(`LND`, `c-lightning`, `eclair`) dispatched on in `saveComposeFile`. -/
inductive LightningImplementation where
  | LND
  | clightning
  | eclair
  deriving DecidableEq, Repr

/-- Ports a bitcoin node exposes, modelled from the spec. -/
structure BitcoinPorts where
  rpc : Nat
  p2p : Nat
  zmqBlock : Nat
  zmqTx : Nat
  deriving DecidableEq, Repr

/-- Modelled from the spec: a bitcoin backend node (`shared/types` is not under
the inspected sources). Carries the shared node identity plus RPC credentials. -/
structure BitcoinNode where
  id : Nat
  networkId : Nat
  name : String
  version : String
  status : Status
  implementation : BitcoinImplementation
  rpcUser : String
  rpcPass : String
  ports : BitcoinPorts
  deriving DecidableEq, Repr

/-- Ports a lightning node exposes, modelled from the spec. -/
structure LightningPorts where
  rest : Nat
  grpc : Nat
  p2p : Nat
  deriving DecidableEq, Repr

/-- Modelled from the spec: a Lightning node with its declared backend
reference by name. -/
structure LightningNode where
  id : Nat
  networkId : Nat
  name : String
  version : String
  status : Status
  implementation : LightningImplementation
  backendName : String
  ports : LightningPorts
  deriving DecidableEq, Repr

/-- The two ordered node sequences of a network (`types.ts`). -/
structure NetworkNodes where
  bitcoin : List BitcoinNode
  lightning : List LightningNode
  deriving DecidableEq, Repr

/-- A network (`types.ts`): identity, display name, status, filesystem root
path, mining-automation mode (an opaque tag here) and the two node sequences. -/
structure Network where
  id : Nat
  name : String
  status : Status
  path : String
  autoMineMode : Nat
  nodes : NetworkNodes
  deriving DecidableEq, Repr

/-! ## Backend state sync (`src/store/models/bitcoind.ts`) -/

/-- `bitcoind.ts:11-12`: the cache key for a backend node is the composite of
its network id and its name (a JS template literal). -/
def getNetworkBackendId (node : BitcoinNode) : String :=
  toString node.networkId ++ "-" ++ node.name

/-- Cached per-backend info (`BitcoindNodeModel`): both fields optional. -/
structure BitcoindNodeModel where
  chainInfo : Option ChainInfo
  walletInfo : Option WalletInfo
  deriving DecidableEq, Repr

/-- The `nodes` mapping of the bitcoind store model, a finite map from the
composite key to the cached info (a JS object keyed by strings). -/
abbrev BitcoindNodeMapping := String → Option BitcoindNodeModel

/-- `bitcoind.ts:51-53`: `removeNode` deletes the entry under the node's
composite key. -/
def removeNode (m : BitcoindNodeMapping) (node : BitcoinNode) : BitcoindNodeMapping :=
  fun k => if k = getNetworkBackendId node then none else m k

/-- `bitcoind.ts:57-62`: `setInfo` creates the entry if missing and writes both
fields (the model has no other fields, so this is a full replacement). -/
def setInfo (m : BitcoindNodeMapping) (node : BitcoinNode) (ci : ChainInfo)
    (wi : WalletInfo) : BitcoindNodeMapping :=
  fun k =>
    if k = getNetworkBackendId node then some ⟨some ci, some wi⟩ else m k

/-- The store environment: injected services and the store's network list.
`getBlockchainInfo`/`getWalletInfo` give the responses of the bitcoind RPC
service; `svcMine` gives the outcome of `bitcoindService.mine`;
`networks` backs `getStoreState().network.networkById`. -/
structure StoreEnv where
  getBlockchainInfo : BitcoinNode → ChainInfo
  getWalletInfo : BitcoinNode → WalletInfo
  svcMine : Int → BitcoinNode → Except String (List String)
  networks : List Network

/-- `bitcoind.ts:63-67`: the `getInfo` thunk fetches chain and wallet info and
stores them via `setInfo`. -/
def getInfo (env : StoreEnv) (node : BitcoinNode)
    (m : BitcoindNodeMapping) : BitcoindNodeMapping :=
  setInfo m node (env.getBlockchainInfo node) (env.getWalletInfo node)

/-- Outcome of one `mine` thunk invocation: its result, the resulting cache
state, and the calls made to `bitcoindService.mine` (blocks, node name). -/
structure MineRun where
  result : Except String Unit
  nodes : BitcoindNodeMapping
  svcMineCalls : List (Int × String)

/-- `bitcoind.ts:68-79`: the `mine` thunk. Rejects a negative block count
before any service call; otherwise calls `bitcoindService.mine`, then (after a
fixed settle delay, irrelevant to state) refreshes `getInfo` for every bitcoin
node of the node's network whose status is `Started`. `networkById` (the
network store model is not under the inspected sources) is modelled from the
spec as lookup by id, failing when absent. The `Promise.all` fan-out is
modelled as a left fold; the refreshed nodes have pairwise distinct keys in
every well-formed store, so the order is immaterial. -/
def mine (env : StoreEnv) (blocks : Int) (node : BitcoinNode)
    (st : BitcoindNodeMapping) : MineRun :=
  if blocks < 0 then ⟨.error "mineError", st, []⟩
  else
    match env.svcMine blocks node with
    | .error e => ⟨.error e, st, [(blocks, node.name)]⟩
    | .ok _ =>
      match env.networks.find? (fun nw => nw.id = node.networkId) with
      | none => ⟨.error "networkByIdError", st, [(blocks, node.name)]⟩
      | some network =>
        ⟨.ok (),
          (network.nodes.bitcoin.filter (fun n => n.status = Status.Started)).foldl
            (fun m n => getInfo env n m) st,
          [(blocks, node.name)]⟩

/-! ## Lifecycle controller (`DockerService`, `src/lib/docker/dockerService.ts`) -/

/-- Scanner mode for the ANSI stripper. -/
inductive AnsiMode where
  | normal
  | afterEsc
  | inCsi
  deriving DecidableEq, Repr

/-- Modelled from the third-party `strip-ansi` dependency: removes CSI escape
sequences (ESC `[` parameter bytes, a final byte). An ESC that does not open a
recognized sequence is kept, as `strip-ansi` keeps it. -/
def stripAnsiAux : AnsiMode → List Char → List Char
  | .normal, [] => []
  | .normal, c :: rest =>
    if c = '\x1b' then stripAnsiAux .afterEsc rest else c :: stripAnsiAux .normal rest
  | .afterEsc, [] => ['\x1b']
  | .afterEsc, c :: rest =>
    if c = '[' then stripAnsiAux .inCsi rest
    else '\x1b' :: c :: stripAnsiAux .normal rest
  | .inCsi, [] => []
  | .inCsi, c :: rest =>
    if c.isDigit ∨ c = ';' then stripAnsiAux .inCsi rest
    else stripAnsiAux .normal rest

/-- `stripAnsi` over strings. -/
def stripAnsi (s : String) : String :=
  (stripAnsiAux .normal s.data).asString

/-- The result shape of a `docker-compose` invocation (`IDockerComposeResult`). -/
structure ComposeResult where
  out : String
  err : String
  exitCode : Int
  deriving DecidableEq, Repr

/-- The exception shape thrown by a failed `docker-compose` invocation: the
structured error with its `err` text (the fields `execute` reads or rewrites). -/
structure ComposeError where
  err : String
  exitCode : Int
  deriving DecidableEq, Repr

/-- Modelled from the `JSON.stringify` of a failure object in
`DockerService.execute`: a deterministic serialization of all its fields. -/
def serializeComposeError (e : ComposeError) : String :=
  "\x7b\"err\":\"" ++ e.err ++ "\",\"exitCode\":" ++ toString e.exitCode ++ "\x7d"

/-- `dockerService.ts:263-278` (`DockerService.execute`): on success, strips
ANSI codes from both `out` and `err`; on failure, rewrites the exception's
`err` to its stripped form and throws a single `Error` whose message is that
text, falling back to the serialized failure when the text is empty. The
underlying invocation outcome is the argument. -/
def execute (r : Except ComposeError ComposeResult) : Except String ComposeResult :=
  match r with
  | .ok result =>
    .ok { result with out := stripAnsi result.out, err := stripAnsi result.err }
  | .error e =>
    let e' : ComposeError := { e with err := stripAnsi e.err }
    .error (if e'.err = "" then serializeComposeError e' else e'.err)

/-- One entry of the container engine's image listing (`RepoTags` may be
absent, which the source defaults to `[]`). -/
structure ImageInfo where
  repoTags : Option (List String)
  deriving DecidableEq, Repr

/-- `dockerService.ts:81-98` (`DockerService.getImages`): flattens the listed
`RepoTags`, drops the untagged sentinel, keeps the first occurrence of each
tag, and returns `[]` when the underlying listing failed. The listing outcome
is the argument. -/
def getImages (r : Except String (List ImageInfo)) : List String :=
  match r with
  | .error _ => []
  | .ok allImages =>
    let imageNames :=
      (allImages.map (fun i => i.repoTags.getD [])).flatten.filter
        (fun n => n ≠ "<none>:<none>")
    (imageNames.enum.filter (fun p => imageNames.indexOf p.2 = p.1)).map Prod.snd

/-! ## Composition builder (`DockerService.saveComposeFile`) -/

/-- Modelled from the spec: one service entry of the composition document
(`composeFile.ts` is not under the inspected sources): the node's
implementation/version image, its init command, and its exposed ports. -/
structure ComposeService where
  image : String
  command : String
  ports : List Nat
  deriving DecidableEq, Repr

/-- Modelled from the spec: the composition document content — one named
service per added node, in insertion order. -/
structure ComposeContent where
  services : List (String × ComposeService)
  deriving DecidableEq, Repr

/-- The empty document a fresh `ComposeFile` holds. -/
def ComposeContent.empty : ComposeContent := ⟨[]⟩

/-- Modelled from the spec: `ComposeFile.addBitcoind` appends one service named
by the node's name, referencing its image and the ports its variant requires. -/
def addBitcoind (f : ComposeContent) (node : BitcoinNode) : ComposeContent :=
  ⟨f.services ++
    [(node.name,
      { image := "polarlightning/bitcoind:" ++ node.version
        command := "bitcoind -server=1 -rpcuser=" ++ node.rpcUser ++
          " -rpcpassword=" ++ node.rpcPass
        ports := [node.ports.rpc, node.ports.p2p, node.ports.zmqBlock, node.ports.zmqTx] })]⟩

/-- Modelled from the spec: `ComposeFile.addLnd` appends one service named by
the node's name whose init command references the backend's service name and
RPC credentials. -/
def addLnd (f : ComposeContent) (node : LightningNode) (backend : BitcoinNode) :
    ComposeContent :=
  ⟨f.services ++
    [(node.name,
      { image := "polarlightning/lnd:" ++ node.version
        command := "lnd --bitcoind.rpchost=" ++ backend.name ++
          " --bitcoind.rpcuser=" ++ backend.rpcUser ++
          " --bitcoind.rpcpass=" ++ backend.rpcPass
        ports := [node.ports.rest, node.ports.grpc, node.ports.p2p] })]⟩

/-- Modelled from the spec: `ComposeFile.addClightning`, as `addLnd`. -/
def addClightning (f : ComposeContent) (node : LightningNode) (backend : BitcoinNode) :
    ComposeContent :=
  ⟨f.services ++
    [(node.name,
      { image := "polarlightning/clightning:" ++ node.version
        command := "lightningd --network=regtest --bitcoin-rpcconnect=" ++ backend.name ++
          " --bitcoin-rpcuser=" ++ backend.rpcUser ++
          " --bitcoin-rpcpassword=" ++ backend.rpcPass
        ports := [node.ports.rest, node.ports.p2p] })]⟩

/-- Modelled from the spec: `ComposeFile.addEclair`, as `addLnd`. -/
def addEclair (f : ComposeContent) (node : LightningNode) (backend : BitcoinNode) :
    ComposeContent :=
  ⟨f.services ++
    [(node.name,
      { image := "polarlightning/eclair:" ++ node.version
        command := "polar-eclair --server.binding-ip=0.0.0.0 --bitcoind.host=" ++ backend.name ++
          " --bitcoind.rpcuser=" ++ backend.rpcUser ++
          " --bitcoind.rpcpassword=" ++ backend.rpcPass
        ports := [node.ports.rest, node.ports.p2p] })]⟩

/-- `dockerService.ts:112,117,122`: backend resolution in `saveComposeFile` —
`bitcoin.find(n => n.name === backendName) || bitcoin[0]`. `bitcoin[0]` of an
empty sequence is `undefined` (`none`). -/
def resolveBackend (bitcoin : List BitcoinNode) (backendName : String) :
    Option BitcoinNode :=
  (bitcoin.find? (fun n => n.name = backendName)).orElse (fun _ => bitcoin.head?)

/-- One step of the lightning loop of `saveComposeFile`: resolve the backend
and dispatch on the implementation tag. Dereferencing an `undefined` backend
inside the add call throws, modelled as `none`. -/
def addLightning (bitcoin : List BitcoinNode) (f : ComposeContent)
    (node : LightningNode) : Option ComposeContent :=
  match resolveBackend bitcoin node.backendName with
  | none => none
  | some backend =>
    match node.implementation with
    | .LND => some (addLnd f node backend)
    | .clightning => some (addClightning f node backend)
    | .eclair => some (addEclair f node backend)

/-- `dockerService.ts:104-131` (`saveComposeFile`), the document-construction
part: one `addBitcoind` per bitcoin node in order, then one add per lightning
node with its resolved backend. Writing the rendered document to the network
path is the final step; the content is what the claims concern. -/
def saveComposeContent (network : Network) : Option ComposeContent :=
  network.nodes.lightning.foldlM (addLightning network.nodes.bitcoin)
    (network.nodes.bitcoin.foldl addBitcoind ComposeContent.empty)

/-- Modelled from the `js-yaml` dependency: `yaml.dump` is a pure,
deterministic serializer; a concrete deterministic rendering stands in for it. -/
def renderCompose (c : ComposeContent) : String :=
  "services:\n" ++ String.join (c.services.map (fun p =>
    "  " ++ p.1 ++ ":\n    image: " ++ p.2.image ++ "\n    command: " ++ p.2.command ++
      "\n    ports: " ++ String.intercalate "," (p.2.ports.map toString) ++ "\n"))

/-- The bytes `saveComposeFile` writes to `<network.path>/docker-compose.yml`. -/
def composeYaml (network : Network) : Option String :=
  (saveComposeContent network).map renderCompose

/-! ## Lifecycle operations as command traces -/

/-- A `docker-compose` invocation issued by the lifecycle controller. -/
inductive ComposeCmd where
  | upAll
  | down
  | upOne (service : String)
  | stopOne (service : String)
  | rm (service : String)
  deriving DecidableEq, Repr

/-- The shared identity `startNode`/`stopNode`/`ensureDirs` read from a node
(`CommonNode`): its unique name and its implementation tag. -/
structure CommonNode where
  name : String
  implementation : String
  deriving DecidableEq, Repr

/-- The container runtime: the outcome of each compose command, run in a
working directory (the network's path). -/
abbrev ComposeRuntime := String → ComposeCmd → Except ComposeError ComposeResult

/-- Outcome of a lifecycle operation: the data directories ensured, the
compose commands issued in order, and the operation result. -/
structure LifecycleRun where
  dirs : List String
  cmds : List ComposeCmd
  result : Except String ComposeResult

/-- `dockerService.ts:313-329` (`ensureDirs`): the per-node data directories
created ahead of the container runtime (`<network-root>/<implementation>/<name>`
per the spec; `nodePath` of `utils/config` is not under the inspected sources),
plus the nested data/REST directories for c-lightning. Purely additive; no
compose command is issued. -/
def ensureDirsPaths (network : Network) (nodes : List CommonNode) : List String :=
  (nodes.map (fun node =>
    let nodeDir := network.path ++ "/" ++ node.implementation ++ "/" ++ node.name
    if node.implementation = "c-lightning" then
      [nodeDir, nodeDir ++ "/lightningd", nodeDir ++ "/rest-api"]
    else [nodeDir])).flatten

/-- `dockerService.ts:180-185` (`stopNode`): one `stopOne` for the node's
service name, through `execute`. -/
def stopNode (run : ComposeRuntime) (network : Network) (node : CommonNode) :
    LifecycleRun :=
  ⟨[], [.stopOne node.name], execute (run network.path (.stopOne node.name))⟩

/-- `dockerService.ts:163-173` (`startNode`): ensures the node's directories,
always stops the node's container first (a container already started in an
error state would make a bare start a no-op), then issues `upOne`. A stop
failure propagates and `upOne` is never issued. -/
def startNode (run : ComposeRuntime) (network : Network) (node : CommonNode) :
    LifecycleRun :=
  let dirs := ensureDirsPaths network [node]
  let stopRun := stopNode run network node
  match stopRun.result with
  | .error e => ⟨dirs, stopRun.cmds, .error e⟩
  | .ok _ =>
    ⟨dirs, stopRun.cmds ++ [.upOne node.name],
      execute (run network.path (.upOne node.name))⟩

/-! ## Persistence (`saveNetworks` / `loadNetworks`) -/

/-- A JSON value, the abstract syntax the persisted document serializes to.
All numbers in the document are non-negative integers. `JSON.parse` recovers
exactly the value `JSON.stringify` printed, so the filesystem model stores the
parsed value. -/
inductive Json where
  | str (s : String)
  | num (n : Nat)
  | arr (xs : List Json)
  | obj (fields : List (String × Json))

/-- Field access on a JSON object (first binding, as on a JS object). -/
def Json.getField : Json → String → Option Json
  | .obj fields, key => fields.lookup key
  | _, _ => none

/-- A JSON string's value. -/
def Json.asString? : Json → Option String
  | .str s => some s
  | _ => none

/-- A JSON number's value. -/
def Json.asNat? : Json → Option Nat
  | .num n => some n
  | _ => none

/-- A JSON array's elements. -/
def Json.asArr? : Json → Option (List Json)
  | .arr xs => some xs
  | _ => none

/-- A JSON object's bindings. -/
def Json.asObj? : Json → Option (List (String × Json))
  | .obj fields => some fields
  | _ => none

/-- `shared/types` declares `Status` as a numeric enum; JSON carries the index. -/
def encodeStatus : Status → Json
  | .Starting => .num 0
  | .Started => .num 1
  | .Stopping => .num 2
  | .Stopped => .num 3
  | .Error => .num 4

/-- Inverse of `encodeStatus`. -/
def decodeStatus : Json → Option Status
  | .num 0 => some .Starting
  | .num 1 => some .Started
  | .num 2 => some .Stopping
  | .num 3 => some .Stopped
  | .num 4 => some .Error
  | _ => none

/-- The implementation tag strings used by the source (`'bitcoind'`, `'btcd'`). -/
def encodeBitcoinImplementation : BitcoinImplementation → Json
  | .bitcoind => .str "bitcoind"
  | .btcd => .str "btcd"

/-- Inverse of `encodeBitcoinImplementation`. -/
def decodeBitcoinImplementation : Json → Option BitcoinImplementation
  | .str "bitcoind" => some .bitcoind
  | .str "btcd" => some .btcd
  | _ => none

/-- The implementation tag strings used by the source
(`'LND'`, `'c-lightning'`, `'eclair'`). -/
def encodeLightningImplementation : LightningImplementation → Json
  | .LND => .str "LND"
  | .clightning => .str "c-lightning"
  | .eclair => .str "eclair"

/-- Inverse of `encodeLightningImplementation`. -/
def decodeLightningImplementation : Json → Option LightningImplementation
  | .str "LND" => some .LND
  | .str "c-lightning" => some .clightning
  | .str "eclair" => some .eclair
  | _ => none

/-- JSON shape of a bitcoin node's ports. -/
def encodeBitcoinPorts (p : BitcoinPorts) : Json :=
  .obj [("rpc", .num p.rpc), ("p2p", .num p.p2p),
        ("zmqBlock", .num p.zmqBlock), ("zmqTx", .num p.zmqTx)]

/-- Inverse of `encodeBitcoinPorts`. -/
def decodeBitcoinPorts (j : Json) : Option BitcoinPorts := do
  let rpc ← (j.getField "rpc").bind Json.asNat?
  let p2p ← (j.getField "p2p").bind Json.asNat?
  let zmqBlock ← (j.getField "zmqBlock").bind Json.asNat?
  let zmqTx ← (j.getField "zmqTx").bind Json.asNat?
  pure { rpc, p2p, zmqBlock, zmqTx }

/-- JSON shape of a bitcoin node. -/
def encodeBitcoinNode (n : BitcoinNode) : Json :=
  .obj [("id", .num n.id), ("networkId", .num n.networkId), ("name", .str n.name),
        ("version", .str n.version), ("status", encodeStatus n.status),
        ("implementation", encodeBitcoinImplementation n.implementation),
        ("rpcUser", .str n.rpcUser), ("rpcPass", .str n.rpcPass),
        ("ports", encodeBitcoinPorts n.ports)]

/-- Inverse of `encodeBitcoinNode`. -/
def decodeBitcoinNode (j : Json) : Option BitcoinNode := do
  let id ← (j.getField "id").bind Json.asNat?
  let networkId ← (j.getField "networkId").bind Json.asNat?
  let name ← (j.getField "name").bind Json.asString?
  let version ← (j.getField "version").bind Json.asString?
  let status ← (j.getField "status").bind decodeStatus
  let implementation ← (j.getField "implementation").bind decodeBitcoinImplementation
  let rpcUser ← (j.getField "rpcUser").bind Json.asString?
  let rpcPass ← (j.getField "rpcPass").bind Json.asString?
  let ports ← (j.getField "ports").bind decodeBitcoinPorts
  pure { id, networkId, name, version, status, implementation, rpcUser, rpcPass, ports }

/-- JSON shape of a lightning node's ports. -/
def encodeLightningPorts (p : LightningPorts) : Json :=
  .obj [("rest", .num p.rest), ("grpc", .num p.grpc), ("p2p", .num p.p2p)]

/-- Inverse of `encodeLightningPorts`. -/
def decodeLightningPorts (j : Json) : Option LightningPorts := do
  let rest ← (j.getField "rest").bind Json.asNat?
  let grpc ← (j.getField "grpc").bind Json.asNat?
  let p2p ← (j.getField "p2p").bind Json.asNat?
  pure { rest, grpc, p2p }

/-- JSON shape of a lightning node. -/
def encodeLightningNode (n : LightningNode) : Json :=
  .obj [("id", .num n.id), ("networkId", .num n.networkId), ("name", .str n.name),
        ("version", .str n.version), ("status", encodeStatus n.status),
        ("implementation", encodeLightningImplementation n.implementation),
        ("backendName", .str n.backendName),
        ("ports", encodeLightningPorts n.ports)]

/-- Inverse of `encodeLightningNode`. -/
def decodeLightningNode (j : Json) : Option LightningNode := do
  let id ← (j.getField "id").bind Json.asNat?
  let networkId ← (j.getField "networkId").bind Json.asNat?
  let name ← (j.getField "name").bind Json.asString?
  let version ← (j.getField "version").bind Json.asString?
  let status ← (j.getField "status").bind decodeStatus
  let implementation ← (j.getField "implementation").bind decodeLightningImplementation
  let backendName ← (j.getField "backendName").bind Json.asString?
  let ports ← (j.getField "ports").bind decodeLightningPorts
  pure { id, networkId, name, version, status, implementation, backendName, ports }

/-- Element-wise decoding of a JSON array. -/
def decodeList (f : Json → Option α) : List Json → Option (List α)
  | [] => some []
  | j :: rest => do
    let a ← f j
    let tail ← decodeList f rest
    pure (a :: tail)

/-- JSON shape of a network. -/
def encodeNetwork (nw : Network) : Json :=
  .obj [("id", .num nw.id), ("name", .str nw.name), ("status", encodeStatus nw.status),
        ("path", .str nw.path), ("autoMineMode", .num nw.autoMineMode),
        ("nodes", .obj [("bitcoin", .arr (nw.nodes.bitcoin.map encodeBitcoinNode)),
                        ("lightning", .arr (nw.nodes.lightning.map encodeLightningNode))])]

/-- Inverse of `encodeNetwork`. -/
def decodeNetwork (j : Json) : Option Network := do
  let id ← (j.getField "id").bind Json.asNat?
  let name ← (j.getField "name").bind Json.asString?
  let status ← (j.getField "status").bind decodeStatus
  let path ← (j.getField "path").bind Json.asString?
  let autoMineMode ← (j.getField "autoMineMode").bind Json.asNat?
  let nodesJ ← j.getField "nodes"
  let bitcoinJ ← (nodesJ.getField "bitcoin").bind Json.asArr?
  let bitcoin ← decodeList decodeBitcoinNode bitcoinJ
  let lightningJ ← (nodesJ.getField "lightning").bind Json.asArr?
  let lightning ← decodeList decodeLightningNode lightningJ
  pure { id, name, status, path, autoMineMode, nodes := ⟨bitcoin, lightning⟩ }

/-- `types.ts` (`NetworksFile`): version tag, the networks, and the designer
chart layouts — opaque pass-through data keyed by network identity (JS object
keys are strings at runtime). -/
structure NetworksFile where
  version : String
  networks : List Network
  charts : List (String × Json)

/-- JSON shape of the persisted document (`JSON.stringify(data, null, 2)`). -/
def encodeNetworksFile (f : NetworksFile) : Json :=
  .obj [("version", .str f.version),
        ("networks", .arr (f.networks.map encodeNetwork)),
        ("charts", .obj f.charts)]

/-- Inverse of `encodeNetworksFile` (`JSON.parse` plus the shape the source
reads). -/
def decodeNetworksFile (j : Json) : Option NetworksFile := do
  let version ← (j.getField "version").bind Json.asString?
  let networksJ ← (j.getField "networks").bind Json.asArr?
  let networks ← decodeList decodeNetwork networksJ
  let charts ← (j.getField "charts").bind Json.asObj?
  pure { version, networks, charts }

/-- Modelled from `utils/constants` (not under the inspected sources): the
running application's version tag. The embedding only compares it for
equality. -/
def APP_VERSION : String := "1.0.0"

/-- Modelled from the spec: `migrateNetworksFile` (`utils/migrations`, not
under the inspected sources). Spec §4.4: migration steps are applied in
sequence from the document's recorded version up to the current version and
the result is tagged with the current version; a document already at the
current version gets zero steps and is returned unchanged. The step bodies
for older versions are unknown and abstracted; the theorems rely only on the
current-version behavior. -/
def migrateNetworksFile (f : NetworksFile) : NetworksFile :=
  if f.version = APP_VERSION then f else { f with version := APP_VERSION }

/-- The slice of the filesystem the persistence code touches: the content of
`networks.json` under the networks path and the legacy-location copy, each
`none` when absent. -/
structure FileSystemState where
  networksFile : Option Json
  legacyFile : Option Json

/-- `dockerService.ts:209-214` (`saveNetworks`): serializes the document and
overwrites `networks.json`. -/
def saveNetworks (fs : FileSystemState) (data : NetworksFile) : FileSystemState :=
  { fs with networksFile := some (encodeNetworksFile data) }

/-- `dockerService.ts:247-255` (`copyLegacyData`): best-effort copy of the
legacy data into the networks path (a failure is logged and ignored; the model
takes the successful copy). -/
def copyLegacyData (fs : FileSystemState) : FileSystemState :=
  { fs with networksFile := fs.legacyFile }

/-- `dockerService.ts:219-242` (`loadNetworks`): copies legacy data forward
when `networks.json` is absent and a legacy copy exists; returns an empty
current-version document when nothing exists on disk; otherwise parses the
file and, when its version differs from `APP_VERSION` or the process is not
in production (`isProd` is `process.env.NODE_ENV === 'production'`), migrates
and immediately persists the result before returning it. An unparsable file
rejects. -/
def loadNetworks (isProd : Bool) (fs : FileSystemState) :
    Except String (NetworksFile × FileSystemState) :=
  let fs1 := if fs.networksFile.isNone ∧ fs.legacyFile.isSome then copyLegacyData fs else fs
  match fs1.networksFile with
  | none => .ok ({ version := APP_VERSION, networks := [], charts := [] }, fs1)
  | some j =>
    match decodeNetworksFile j with
    | none => .error "SyntaxError"
    | some data =>
      if data.version ≠ APP_VERSION ∨ isProd = false then
        let upgraded := migrateNetworksFile data
        .ok (upgraded, saveNetworks fs1 upgraded)
      else .ok (data, fs1)

/-! ## Concrete fixtures (used by witness theorems) -/

/-- Sample bitcoin ports. -/
def samplePorts : BitcoinPorts := ⟨18443, 19444, 28334, 29335⟩

/-- A started backend node of network 5. -/
def backend1 : BitcoinNode :=
  ⟨1, 5, "backend1", "0.18.1", .Started, .bitcoind, "polaruser", "polarpass", samplePorts⟩

/-- A stopped backend node of network 5. -/
def backend2 : BitcoinNode :=
  ⟨2, 5, "backend2", "0.18.1", .Stopped, .bitcoind, "polaruser", "polarpass", samplePorts⟩

/-- A node with the same name as `backend1` in a different network. -/
def backend1other : BitcoinNode := { backend1 with networkId := 6 }

/-- A lightning node whose backend reference resolves. -/
def alice : LightningNode :=
  ⟨3, 5, "alice", "0.7.1", .Stopped, .LND, "backend1", ⟨8081, 10001, 9735⟩⟩

/-- A lightning node whose backend reference dangles. -/
def bob : LightningNode :=
  ⟨4, 5, "bob", "0.7.1", .Stopped, .clightning, "missing", ⟨8082, 10002, 9736⟩⟩

/-- A sample network holding the nodes above. -/
def sampleNetwork : Network :=
  ⟨5, "test network", .Stopped, "/networks/5", 0, ⟨[backend1, backend2], [alice, bob]⟩⟩

/-- A sample cache state with an entry under every key. -/
def sampleMapping : BitcoindNodeMapping := fun _ => some ⟨none, none⟩

/-- A sample store environment. -/
def sampleEnv : StoreEnv :=
  ⟨fun n => ⟨100, n.name⟩, fun _ => ⟨50⟩, fun _ _ => .ok ["hash"], [sampleNetwork]⟩

/-- A runtime where every compose command succeeds. -/
def sampleRuntime : ComposeRuntime := fun _ _ => .ok ⟨"done", "", 0⟩

/-- A shared node identity for lifecycle witnesses. -/
def sampleCommonNode : CommonNode := ⟨"alice", "LND"⟩

/-- A compose failure carrying colored error text. -/
def sampleComposeError : ComposeError := ⟨"\x1b[31mcommand failed\x1b[39m", 1⟩

/-- A sample image listing with a duplicate tag, an untagged sentinel and a
missing tag list. -/
def sampleImages : List ImageInfo :=
  [⟨some ["polarlightning/lnd:0.7.1", "<none>:<none>"]⟩, ⟨none⟩,
   ⟨some ["polarlightning/lnd:0.7.1", "polarlightning/bitcoind:0.18.1"]⟩]

/-- A sample persisted document at the current version. -/
def sampleNetworksFile : NetworksFile :=
  ⟨APP_VERSION, [sampleNetwork], [("5", Json.obj [])]⟩

/-! ## Theorems

### Decimal rendering of `Nat` (for the composite cache key) -/

/-- `Nat.toDigitsCore` with enough fuel produces the decimal digits, most
significant first, in front of the accumulator. -/
theorem toDigitsCore_eq_digits :
    ∀ (fuel n : Nat) (ds : List Char), 0 < n → n < fuel →
      Nat.toDigitsCore 10 fuel n ds =
        ((Nat.digits 10 n).map Nat.digitChar).reverse ++ ds := by
  intro fuel
  induction fuel with
  | zero => intro n ds hn hf; omega
  | succ fuel ih =>
    intro n ds hn hf
    have hd : Nat.digits 10 n = n % 10 :: Nat.digits 10 (n / 10) :=
      Nat.digits_def' (by norm_num) hn
    simp only [Nat.toDigitsCore]
    by_cases h10 : n / 10 = 0
    · rw [if_pos h10, hd, h10]
      simp
    · rw [if_neg h10]
      have hpos : 0 < n / 10 := Nat.pos_of_ne_zero h10
      have hlt : n / 10 < fuel := by
        have := Nat.div_lt_self hn (by norm_num : 1 < 10)
        omega
      rw [ih (n / 10) _ hpos hlt, hd]
      simp

/-- For positive `n`, the characters of `Nat.repr n` are the decimal digits of
`n`, most significant first. -/
theorem repr_data_of_pos (n : Nat) (hn : 0 < n) :
    (Nat.repr n).data = ((Nat.digits 10 n).map Nat.digitChar).reverse := by
  show (Nat.toDigits 10 n).asString.data = _
  rw [Nat.toDigits, toDigitsCore_eq_digits (n + 1) n [] hn (by omega)]
  simp [List.asString]

/-- The decimal digit characters are never the dash. -/
theorem digitChar_ne_dash (k : Nat) (hk : k < 10) : Nat.digitChar k ≠ '-' := by
  interval_cases k <;> decide

/-- The decimal rendering of a `Nat` contains no dash. -/
theorem dash_not_mem_repr (n : Nat) : '-' ∉ (Nat.repr n).data := by
  rcases Nat.eq_zero_or_pos n with rfl | hn
  · decide
  · rw [repr_data_of_pos n hn]
    intro hmem
    rw [List.mem_reverse, List.mem_map] at hmem
    obtain ⟨d, hd, hdc⟩ := hmem
    exact digitChar_ne_dash d (Nat.digits_lt_base (by norm_num) hd) hdc

/-- `Nat.digitChar` is injective below the base. -/
theorem digitChar_injOn (a b : Nat) (ha : a < 10) (hb : b < 10)
    (h : Nat.digitChar a = Nat.digitChar b) : a = b := by
  interval_cases a <;> interval_cases b <;> simp_all <;> revert h <;> decide

/-- Digit lists below the base map injectively to characters. -/
theorem map_digitChar_inj :
    ∀ (l1 l2 : List Nat), (∀ x ∈ l1, x < 10) → (∀ x ∈ l2, x < 10) →
      l1.map Nat.digitChar = l2.map Nat.digitChar → l1 = l2 := by
  intro l1
  induction l1 with
  | nil => intro l2 _ _ h; cases l2 <;> simp_all
  | cons a t ih =>
    intro l2 h1 h2 h
    cases l2 with
    | nil => simp_all
    | cons b t2 =>
      simp only [List.map_cons, List.cons.injEq] at h
      have ha : a < 10 := h1 a (List.mem_cons_self a t)
      have hb : b < 10 := h2 b (List.mem_cons_self b t2)
      have hab := digitChar_injOn a b ha hb h.1
      have ht := ih t2 (fun x hx => h1 x (List.mem_cons_of_mem a hx))
        (fun x hx => h2 x (List.mem_cons_of_mem b hx)) h.2
      rw [hab, ht]

/-- A positive `Nat` renders to the dash-free digit string; equality of
renderings forces equality of digit lists. -/
theorem digits_eq_of_repr_eq (m n : Nat) (hm : 0 < m) (hn : 0 < n)
    (h : Nat.repr m = Nat.repr n) : Nat.digits 10 m = Nat.digits 10 n := by
  have hdata : (Nat.repr m).data = (Nat.repr n).data := by rw [h]
  rw [repr_data_of_pos m hm, repr_data_of_pos n hn] at hdata
  have hmap := List.reverse_injective hdata
  exact map_digitChar_inj _ _
    (fun x hx => Nat.digits_lt_base (by norm_num) hx)
    (fun x hx => Nat.digits_lt_base (by norm_num) hx) hmap

/-- The decimal rendering of a `Nat` is injective. -/
theorem repr_injective (m n : Nat) (h : Nat.repr m = Nat.repr n) : m = n := by
  rcases Nat.eq_zero_or_pos m with rfl | hm <;> rcases Nat.eq_zero_or_pos n with rfl | hn
  · rfl
  · exfalso
    have hdata : (Nat.repr 0).data = (Nat.repr n).data := by rw [h]
    have h0 : (Nat.repr 0).data = ['0'] := by decide
    rw [h0, repr_data_of_pos n hn] at hdata
    have hmap : (Nat.digits 10 n).map Nat.digitChar = ['0'] := by
      have := congrArg List.reverse hdata
      simpa using this.symm
    rcases hdig : Nat.digits 10 n with _ | ⟨d, td⟩
    · rw [hdig] at hmap; simp at hmap
    · rw [hdig] at hmap
      simp only [List.map_cons, List.cons.injEq, List.map_eq_nil_iff] at hmap
      have hdlt : d < 10 :=
        Nat.digits_lt_base (by norm_num) (hdig ▸ List.mem_cons_self d td)
      have hd0 : d = 0 := digitChar_injOn d 0 hdlt (by norm_num) (by rw [hmap.1]; rfl)
      have := Nat.ofDigits_digits 10 n
      rw [hdig, hmap.2, hd0] at this
      simp [Nat.ofDigits] at this
      omega
  · exfalso
    have hdata : (Nat.repr m).data = (Nat.repr 0).data := by rw [h]
    have h0 : (Nat.repr 0).data = ['0'] := by decide
    rw [h0, repr_data_of_pos m hm] at hdata
    have hmap : (Nat.digits 10 m).map Nat.digitChar = ['0'] := by
      have := congrArg List.reverse hdata
      simpa using this
    rcases hdig : Nat.digits 10 m with _ | ⟨d, td⟩
    · rw [hdig] at hmap; simp at hmap
    · rw [hdig] at hmap
      simp only [List.map_cons, List.cons.injEq, List.map_eq_nil_iff] at hmap
      have hdlt : d < 10 :=
        Nat.digits_lt_base (by norm_num) (hdig ▸ List.mem_cons_self d td)
      have hd0 : d = 0 := digitChar_injOn d 0 hdlt (by norm_num) (by rw [hmap.1]; rfl)
      have := Nat.ofDigits_digits 10 m
      rw [hdig, hmap.2, hd0] at this
      simp [Nat.ofDigits] at this
      omega
  · have hdig := digits_eq_of_repr_eq m n hm hn h
    have hm2 := Nat.ofDigits_digits 10 m
    have hn2 := Nat.ofDigits_digits 10 n
    rw [hdig] at hm2
    omega

/-- Splitting a character list at a dash neither side contains is unambiguous. -/
theorem append_dash_inj :
    ∀ (l1 l2 r1 r2 : List Char), '-' ∉ l1 → '-' ∉ l2 →
      l1 ++ '-' :: r1 = l2 ++ '-' :: r2 → l1 = l2 ∧ r1 = r2 := by
  intro l1
  induction l1 with
  | nil =>
    intro l2 r1 r2 h1 h2 h
    cases l2 with
    | nil => simp_all
    | cons b t2 =>
      exfalso
      simp only [List.nil_append, List.cons_append] at h
      injection h with hc _
      exact h2 (by rw [← hc]; exact List.mem_cons_self _ _)
  | cons a t ih =>
    intro l2 r1 r2 h1 h2 h
    cases l2 with
    | nil =>
      exfalso
      simp only [List.cons_append, List.nil_append] at h
      injection h with hc _
      exact h1 (by rw [hc]; exact List.mem_cons_self _ _)
    | cons b t2 =>
      simp only [List.cons_append] at h
      injection h with hab ht
      have h1t : '-' ∉ t := fun hx => h1 (List.mem_cons_of_mem a hx)
      have h2t : '-' ∉ t2 := fun hx => h2 (List.mem_cons_of_mem b hx)
      obtain ⟨he, hr⟩ := ih t2 r1 r2 h1t h2t ht
      exact ⟨by rw [hab, he], hr⟩

/-- The characters of the composite cache key split as decimal id, dash, name. -/
theorem getNetworkBackendId_data (node : BitcoinNode) :
    (getNetworkBackendId node).data =
      (Nat.repr node.networkId).data ++ '-' :: node.name.data := by
  show ((Nat.repr node.networkId) ++ "-" ++ node.name).data = _
  simp [String.data_append]

/-- The composite cache key determines the network id and the node name: two
nodes share a key only when they agree on both components. -/
theorem getNetworkBackendId_inj (n1 n2 : BitcoinNode)
    (h : getNetworkBackendId n1 = getNetworkBackendId n2) :
    n1.networkId = n2.networkId ∧ n1.name = n2.name := by
  have hdata := congrArg String.data h
  rw [getNetworkBackendId_data, getNetworkBackendId_data] at hdata
  obtain ⟨hid, hname⟩ := append_dash_inj _ _ _ _
    (dash_not_mem_repr n1.networkId) (dash_not_mem_repr n2.networkId) hdata
  exact ⟨repr_injective _ _ (String.ext hid), String.ext hname⟩

/-! ### Backend state sync claims -/

/-- Folding `getInfo` over nodes leaves every key outside their key set
unchanged. -/
theorem foldl_getInfo_not_mem (env : StoreEnv) :
    ∀ (l : List BitcoinNode) (st : BitcoindNodeMapping) (k : String),
      k ∉ l.map getNetworkBackendId →
      (l.foldl (fun m n => getInfo env n m) st) k = st k := by
  intro l
  induction l with
  | nil => intro st k _; rfl
  | cons a t ih =>
    intro st k hk
    simp only [List.map_cons, List.mem_cons, not_or] at hk
    simp only [List.foldl_cons]
    rw [ih (getInfo env a st) k hk.2]
    simp [getInfo, setInfo, hk.1]

/-- Folding `getInfo` over nodes with pairwise distinct keys refreshes every
member's entry to the fetched info. -/
theorem foldl_getInfo_mem (env : StoreEnv) :
    ∀ (l : List BitcoinNode) (st : BitcoindNodeMapping) (n : BitcoinNode),
      n ∈ l → (l.map getNetworkBackendId).Nodup →
      (l.foldl (fun m nd => getInfo env nd m) st) (getNetworkBackendId n) =
        some ⟨some (env.getBlockchainInfo n), some (env.getWalletInfo n)⟩ := by
  intro l
  induction l with
  | nil => intro st n h _; simp at h
  | cons a t ih =>
    intro st n hmem hnodup
    simp only [List.map_cons, List.nodup_cons] at hnodup
    simp only [List.foldl_cons]
    by_cases hnt : n ∈ t
    · exact ih (getInfo env a st) n hnt hnodup.2
    · have hna : n = a := by
        rcases List.mem_cons.mp hmem with h | h
        · exact h
        · exact absurd h hnt
      subst hna
      rw [foldl_getInfo_not_mem env t (getInfo env n st) _ hnodup.1]
      simp [getInfo, setInfo]

/-- C3: for every negative block count, the `mine` thunk rejects with the
mine error before invoking the underlying bitcoind service (no service call
is recorded) and leaves the cached node info unchanged. -/
theorem mine_rejects_negative (env : StoreEnv) (blocks : Int) (node : BitcoinNode)
    (st : BitcoindNodeMapping) (h : blocks < 0) :
    (mine env blocks node st).result = .error "mineError" ∧
    (mine env blocks node st).nodes = st ∧
    (mine env blocks node st).svcMineCalls = [] := by
  unfold mine
  rw [if_pos h]
  exact ⟨rfl, rfl, rfl⟩

/-- Witness for C3 at a concrete input. -/
theorem mine_rejects_negative_witness :
    (-1 : Int) < 0 ∧
    ((mine sampleEnv (-1) backend1 sampleMapping).result = .error "mineError" ∧
     (mine sampleEnv (-1) backend1 sampleMapping).nodes = sampleMapping ∧
     (mine sampleEnv (-1) backend1 sampleMapping).svcMineCalls = []) :=
  ⟨by decide, mine_rejects_negative sampleEnv (-1) backend1 sampleMapping (by decide)⟩

/-- C4: when `mine` succeeds on a non-negative block count, it refreshes the
cached info of every *started* bitcoin node of the mined-on node's network
(not only the mined-on node) before resolving, and leaves the entries of
non-started bitcoin nodes unchanged. The key-nodup hypothesis is the spec's
name-uniqueness invariant. -/
theorem mine_refreshes_started (env : StoreEnv) (blocks : Int) (node : BitcoinNode)
    (st : BitcoindNodeMapping) (network : Network)
    (hb : 0 ≤ blocks)
    (hok : ∃ hashes, env.svcMine blocks node = .ok hashes)
    (hfind : env.networks.find? (fun nw => nw.id = node.networkId) = some network)
    (hkeys : (network.nodes.bitcoin.map getNetworkBackendId).Nodup) :
    (mine env blocks node st).result = .ok () ∧
    ∀ n ∈ network.nodes.bitcoin,
      (n.status = Status.Started →
        (mine env blocks node st).nodes (getNetworkBackendId n) =
          some ⟨some (env.getBlockchainInfo n), some (env.getWalletInfo n)⟩) ∧
      (n.status ≠ Status.Started →
        (mine env blocks node st).nodes (getNetworkBackendId n) =
          st (getNetworkBackendId n)) := by
  obtain ⟨hashes, hok⟩ := hok
  have hneg : ¬ blocks < 0 := not_lt.mpr hb
  unfold mine
  rw [if_neg hneg, hok, hfind]
  refine ⟨rfl, fun n hn => ⟨fun hst => ?_, fun hst => ?_⟩⟩
  · apply foldl_getInfo_mem
    · exact List.mem_filter.mpr ⟨hn, by simp [hst]⟩
    · exact List.Nodup.sublist
        (List.Sublist.map getNetworkBackendId (List.filter_sublist _)) hkeys
  · apply foldl_getInfo_not_mem
    intro hmem
    rw [List.mem_map] at hmem
    obtain ⟨n', hn', hkey⟩ := hmem
    have hmf := List.mem_filter.mp hn'
    have : n' = n := List.inj_on_of_nodup_map hkeys hmf.1 hn hkey
    subst this
    have : n'.status = Status.Started := by simpa using hmf.2
    exact hst this

/-- Witness for C4 at a concrete input: after `mine(6, backend1)` on a
network with a started and a stopped backend, the started node's entry is
refreshed and the stopped node's entry is untouched. -/
theorem mine_refreshes_started_witness :
    ((0 : Int) ≤ 6 ∧ sampleEnv.svcMine 6 backend1 = .ok ["hash"] ∧
      sampleEnv.networks.find? (fun nw => nw.id = backend1.networkId) =
        some sampleNetwork ∧
      (sampleNetwork.nodes.bitcoin.map getNetworkBackendId).Nodup) ∧
    (mine sampleEnv 6 backend1 sampleMapping).result = .ok () ∧
    (mine sampleEnv 6 backend1 sampleMapping).nodes (getNetworkBackendId backend1) =
      some ⟨some (sampleEnv.getBlockchainInfo backend1),
            some (sampleEnv.getWalletInfo backend1)⟩ ∧
    (mine sampleEnv 6 backend1 sampleMapping).nodes (getNetworkBackendId backend2) =
      sampleMapping (getNetworkBackendId backend2) := by
  have h := mine_refreshes_started sampleEnv 6 backend1 sampleMapping sampleNetwork
    (by decide) ⟨["hash"], rfl⟩ (by decide) (by decide)
  refine ⟨⟨by decide, rfl, by decide, by decide⟩, h.1, ?_, ?_⟩
  · exact (h.2 backend1 (by decide)).1 (by decide)
  · exact (h.2 backend2 (by decide)).2 (by decide)

/-- C10: the backend info cache is keyed by the composite of network id and
node name; `removeNode` empties exactly the entry under the node's composite
key, leaves every other key untouched, and in particular leaves the entry of
every node differing in network id or in name — including a same-named node
of a different network — unchanged. -/
theorem removeNode_frame (m : BitcoindNodeMapping) (node : BitcoinNode) :
    removeNode m node (getNetworkBackendId node) = none ∧
    (∀ k, k ≠ getNetworkBackendId node → removeNode m node k = m k) ∧
    (∀ node' : BitcoinNode,
      node'.networkId ≠ node.networkId ∨ node'.name ≠ node.name →
      removeNode m node (getNetworkBackendId node') =
        m (getNetworkBackendId node')) := by
  refine ⟨by simp [removeNode], fun k hk => by simp [removeNode, hk],
    fun node' hne => ?_⟩
  have hkey : getNetworkBackendId node' ≠ getNetworkBackendId node := by
    intro he
    obtain ⟨h1, h2⟩ := getNetworkBackendId_inj node' node he
    rcases hne with h | h
    · exact h h1
    · exact h h2
  simp [removeNode, hkey]

/-- Witness for C10 at a concrete input: removing `backend1` leaves the entry
of the same-named node of another network unchanged. -/
theorem removeNode_frame_witness :
    (backend1other.networkId ≠ backend1.networkId ∨
      backend1other.name ≠ backend1.name) ∧
    removeNode sampleMapping backend1 (getNetworkBackendId backend1other) =
      sampleMapping (getNetworkBackendId backend1other) :=
  ⟨Or.inl (by decide),
    (removeNode_frame sampleMapping backend1).2.2 backend1other (Or.inl (by decide))⟩

/-! ### Composition builder claims -/

/-- Adding the bitcoin sequence appends exactly one service per node, named by
its node. -/
theorem foldl_addBitcoind_names :
    ∀ (l : List BitcoinNode) (f : ComposeContent),
      ((l.foldl addBitcoind f).services).map Prod.fst =
        f.services.map Prod.fst ++ l.map BitcoinNode.name := by
  intro l
  induction l with
  | nil => intro f; simp
  | cons a t ih =>
    intro f
    simp only [List.foldl_cons, List.map_cons]
    rw [ih (addBitcoind f a)]
    simp [addBitcoind]

/-- One lightning step, when it does not fail, appends exactly one service
named by its node. -/
theorem addLightning_names (bitcoin : List BitcoinNode) (f f' : ComposeContent)
    (node : LightningNode) (h : addLightning bitcoin f node = some f') :
    f'.services.map Prod.fst = f.services.map Prod.fst ++ [node.name] := by
  unfold addLightning at h
  cases hres : resolveBackend bitcoin node.backendName with
  | none => rw [hres] at h; exact absurd h (by simp)
  | some backend =>
    rw [hres] at h
    cases himpl : node.implementation <;>
      simp only [himpl, Option.some.injEq] at h <;>
      rw [← h] <;>
      simp [addLnd, addClightning, addEclair]

/-- The lightning loop, when it does not fail, appends exactly one service per
lightning node, named by its node. -/
theorem foldlM_addLightning_names (bitcoin : List BitcoinNode) :
    ∀ (l : List LightningNode) (f doc : ComposeContent),
      l.foldlM (addLightning bitcoin) f = some doc →
      doc.services.map Prod.fst =
        f.services.map Prod.fst ++ l.map LightningNode.name := by
  intro l
  induction l with
  | nil =>
    intro f doc h
    simp only [List.foldlM_nil] at h
    cases h
    simp
  | cons a t ih =>
    intro f doc h
    simp only [List.foldlM_cons] at h
    cases hstep : addLightning bitcoin f a with
    | none => rw [hstep] at h; exact absurd h (by simp)
    | some f' =>
      rw [hstep] at h
      have h2 : t.foldlM (addLightning bitcoin) f' = some doc := by simpa using h
      rw [ih f' doc h2, addLightning_names bitcoin f f' a hstep]
      simp

/-- C1: whenever `saveComposeFile` produces a document, the document holds
exactly one service per node of the bitcoin sequence and one per node of the
lightning sequence, in order, each named by its node's name. -/
theorem saveComposeFile_complete (network : Network) (doc : ComposeContent)
    (h : saveComposeContent network = some doc) :
    doc.services.map Prod.fst =
      network.nodes.bitcoin.map BitcoinNode.name ++
        network.nodes.lightning.map LightningNode.name := by
  unfold saveComposeContent at h
  rw [foldlM_addLightning_names network.nodes.bitcoin network.nodes.lightning _ doc h,
    foldl_addBitcoind_names]
  simp [ComposeContent.empty]

/-- Witness for C1 at a concrete network of two bitcoin and two lightning
nodes. -/
theorem saveComposeFile_complete_witness :
    saveComposeContent sampleNetwork =
      some ((saveComposeContent sampleNetwork).getD ComposeContent.empty) ∧
    ((saveComposeContent sampleNetwork).getD ComposeContent.empty).services.map Prod.fst =
      sampleNetwork.nodes.bitcoin.map BitcoinNode.name ++
        sampleNetwork.nodes.lightning.map LightningNode.name :=
  ⟨by rfl, saveComposeFile_complete sampleNetwork _ (by rfl)⟩

/-- C2: a lightning node whose declared backend name matches no bitcoin node
resolves to the first node of the bitcoin sequence, and (the sequence being
non-empty) the add step does not fail. -/
theorem resolveBackend_falls_back (bitcoin : List BitcoinNode)
    (node : LightningNode) (hmiss : ∀ b ∈ bitcoin, b.name ≠ node.backendName)
    (hne : bitcoin ≠ []) :
    resolveBackend bitcoin node.backendName = some (bitcoin.head hne) ∧
    ∀ f : ComposeContent, ∃ f', addLightning bitcoin f node = some f' := by
  have hfind : bitcoin.find? (fun n => n.name = node.backendName) = none := by
    apply List.find?_eq_none.mpr
    intro b hb
    simp [hmiss b hb]
  have hres : resolveBackend bitcoin node.backendName = some (bitcoin.head hne) := by
    unfold resolveBackend
    rw [hfind, List.head?_eq_head hne]
    rfl
  refine ⟨hres, fun f => ?_⟩
  unfold addLightning
  rw [hres]
  cases node.implementation <;> exact ⟨_, rfl⟩

/-- Witness for C2: `bob` declares the dangling backend `"missing"` and
resolves to `backend1`, the first bitcoin node. -/
theorem resolveBackend_falls_back_witness :
    (∀ b ∈ sampleNetwork.nodes.bitcoin, b.name ≠ bob.backendName) ∧
    resolveBackend sampleNetwork.nodes.bitcoin bob.backendName =
      some (sampleNetwork.nodes.bitcoin.head (by decide)) ∧
    ∃ f', addLightning sampleNetwork.nodes.bitcoin ComposeContent.empty bob = some f' := by
  have h := resolveBackend_falls_back sampleNetwork.nodes.bitcoin bob
    (by decide) (by decide)
  exact ⟨by decide, h.1, h.2 ComposeContent.empty⟩

/-- C5: the composition builder is deterministic — equal networks yield
byte-identical rendered documents. -/
theorem build_deterministic (n1 n2 : Network) (h : n1 = n2) :
    composeYaml n1 = composeYaml n2 := by
  rw [h]

/-- Witness for C5 at a concrete network. -/
theorem build_deterministic_witness :
    sampleNetwork = sampleNetwork ∧
    composeYaml sampleNetwork = composeYaml sampleNetwork :=
  ⟨rfl, build_deterministic sampleNetwork sampleNetwork rfl⟩

/-! ### Lifecycle controller claims -/

/-- C6: `startNode` always issues the stop of the node's container as its
first compose command, and any `upOne` it issues comes strictly after a
`stopOne` for the same node. -/
theorem startNode_stops_first (run : ComposeRuntime) (network : Network)
    (node : CommonNode) :
    (startNode run network node).cmds.head? = some (.stopOne node.name) ∧
    ∀ i, (startNode run network node).cmds.get? i = some (.upOne node.name) →
      ∃ j, j < i ∧
        (startNode run network node).cmds.get? j = some (.stopOne node.name) := by
  unfold startNode stopNode
  cases execute (run network.path (.stopOne node.name)) with
  | error e =>
    refine ⟨rfl, fun i hi => absurd hi ?_⟩
    match i with
    | 0 => simp
    | _ + 1 => simp [List.get?]
  | ok r =>
    refine ⟨rfl, fun i hi => ?_⟩
    match i with
    | 0 => exact absurd hi (by simp)
    | 1 => exact ⟨0, by omega, rfl⟩
    | _ + 2 => exact absurd hi (by simp [List.get?])

/-- Witness for C6 at a concrete successful runtime: the command sequence is
stop first, then up. -/
theorem startNode_stops_first_witness :
    (startNode sampleRuntime sampleNetwork sampleCommonNode).cmds.head? =
      some (.stopOne "alice") ∧
    (startNode sampleRuntime sampleNetwork sampleCommonNode).cmds.get? 1 =
      some (.upOne "alice") ∧
    ∃ j, j < 1 ∧
      (startNode sampleRuntime sampleNetwork sampleCommonNode).cmds.get? j =
        some (.stopOne "alice") := by
  have h := startNode_stops_first sampleRuntime sampleNetwork sampleCommonNode
  exact ⟨h.1, by rfl, h.2 1 (by rfl)⟩

/-- C7: `execute` strips ANSI color codes from both channels of a successful
result, and on failure surfaces a single error whose message is the stripped
standard-error text, falling back to the serialized failure when that text is
empty. -/
theorem execute_normalizes (r : Except ComposeError ComposeResult) :
    (∀ res, r = .ok res →
      execute r = .ok { res with out := stripAnsi res.out, err := stripAnsi res.err }) ∧
    (∀ e, r = .error e →
      execute r = .error
        (if stripAnsi e.err = "" then
          serializeComposeError { e with err := stripAnsi e.err }
        else stripAnsi e.err)) := by
  constructor
  · rintro res rfl; rfl
  · rintro e rfl; rfl

/-- Witness for C7 at a failure with colored error text; the surfaced message
is the raw stripped text. -/
theorem execute_normalizes_witness :
    (Except.error sampleComposeError :
      Except ComposeError ComposeResult) = .error sampleComposeError ∧
    execute (.error sampleComposeError) = .error
      (if stripAnsi sampleComposeError.err = "" then
        serializeComposeError { sampleComposeError with
          err := stripAnsi sampleComposeError.err }
      else stripAnsi sampleComposeError.err) ∧
    execute (.error sampleComposeError) = .error "command failed" :=
  ⟨rfl, (execute_normalizes (.error sampleComposeError)).2 sampleComposeError rfl,
    by rfl⟩

/-- The first-occurrence filter of `getImages` preserves membership. -/
theorem keepFirst_mem (l : List String) (a : String) :
    a ∈ (l.enum.filter (fun p => l.indexOf p.2 = p.1)).map Prod.snd ↔ a ∈ l := by
  constructor
  · intro h
    rw [List.mem_map] at h
    obtain ⟨p, hp, hpa⟩ := h
    have hmem := (List.mem_filter.mp hp).1
    rw [List.mem_enum_iff_getElem?] at hmem
    subst hpa
    exact List.getElem?_mem hmem
  · intro h
    rw [List.mem_map]
    refine ⟨(l.indexOf a, a), ?_, rfl⟩
    rw [List.mem_filter]
    have hlt : l.indexOf a < l.length := List.indexOf_lt_length.mpr h
    refine ⟨?_, by simp⟩
    rw [List.mem_enum_iff_getElem?]
    show l[l.indexOf a]? = some a
    rw [List.getElem?_eq_getElem hlt, List.getElem_indexOf hlt]

/-- The first-occurrence filter of `getImages` removes duplicates. -/
theorem keepFirst_nodup (l : List String) :
    ((l.enum.filter (fun p => l.indexOf p.2 = p.1)).map Prod.snd).Nodup := by
  have henum : l.enum.Nodup :=
    List.Nodup.of_map Prod.fst (List.nodup_enum_map_fst l)
  refine List.Nodup.map_on ?_ (henum.filter _)
  intro x hx y hy hxy
  have hxf := (List.mem_filter.mp hx).2
  have hyf := (List.mem_filter.mp hy).2
  simp only [decide_eq_true_eq] at hxf hyf
  have hfst : x.1 = y.1 := by rw [← hxf, ← hyf, hxy]
  exact Prod.ext hfst hxy

/-- C8: `getImages` never throws: on a failed listing it returns the empty
list; on a successful listing it returns exactly the listed tags minus the
untagged sentinel, without duplicates. -/
theorem getImages_spec :
    (∀ e, getImages (.error e) = []) ∧
    ∀ imgs,
      (getImages (.ok imgs)).Nodup ∧
      "<none>:<none>" ∉ getImages (.ok imgs) ∧
      ∀ tag, tag ∈ getImages (.ok imgs) ↔
        (tag ∈ (imgs.map (fun i => i.repoTags.getD [])).flatten ∧
          tag ≠ "<none>:<none>") := by
  refine ⟨fun e => rfl, fun imgs => ?_⟩
  have heq : getImages (.ok imgs) =
      ((((imgs.map (fun i => i.repoTags.getD [])).flatten.filter
          (fun n => n ≠ "<none>:<none>")).enum.filter
        (fun p => ((imgs.map (fun i => i.repoTags.getD [])).flatten.filter
          (fun n => n ≠ "<none>:<none>")).indexOf p.2 = p.1)).map Prod.snd) := rfl
  refine ⟨heq ▸ keepFirst_nodup _, ?_, fun tag => ?_⟩
  · intro hmem
    rw [heq, keepFirst_mem, List.mem_filter] at hmem
    simp at hmem
  · rw [heq, keepFirst_mem, List.mem_filter]
    simp

/-- Witness for C8 at a concrete listing: the duplicate tag collapses, the
sentinel is gone, a failure gives the empty list. -/
theorem getImages_spec_witness :
    getImages (.error "socket unavailable") = [] ∧
    (getImages (.ok sampleImages)).Nodup ∧
    "<none>:<none>" ∉ getImages (.ok sampleImages) ∧
    ("polarlightning/lnd:0.7.1" ∈ getImages (.ok sampleImages) ↔
      ("polarlightning/lnd:0.7.1" ∈
          (sampleImages.map (fun i => i.repoTags.getD [])).flatten ∧
        "polarlightning/lnd:0.7.1" ≠ "<none>:<none>")) :=
  ⟨getImages_spec.1 "socket unavailable", (getImages_spec.2 sampleImages).1,
    (getImages_spec.2 sampleImages).2.1,
    (getImages_spec.2 sampleImages).2.2 "polarlightning/lnd:0.7.1"⟩

/-! ### Persistence claims -/

/-- `decodeStatus` inverts `encodeStatus`. -/
theorem decodeStatus_enc (s : Status) : decodeStatus (encodeStatus s) = some s := by
  cases s <;> rfl

/-- `decodeBitcoinImplementation` inverts its encoder. -/
theorem decodeBitcoinImplementation_enc (i : BitcoinImplementation) :
    decodeBitcoinImplementation (encodeBitcoinImplementation i) = some i := by
  cases i <;> rfl

/-- `decodeLightningImplementation` inverts its encoder. -/
theorem decodeLightningImplementation_enc (i : LightningImplementation) :
    decodeLightningImplementation (encodeLightningImplementation i) = some i := by
  cases i <;> rfl

/-- `decodeBitcoinNode` inverts `encodeBitcoinNode`. -/
theorem decodeBitcoinNode_enc (n : BitcoinNode) :
    decodeBitcoinNode (encodeBitcoinNode n) = some n := by
  obtain ⟨id, networkId, name, version, status, impl, user, pass, ports⟩ := n
  cases status <;> cases impl <;> rfl

/-- `decodeLightningNode` inverts `encodeLightningNode`. -/
theorem decodeLightningNode_enc (n : LightningNode) :
    decodeLightningNode (encodeLightningNode n) = some n := by
  obtain ⟨id, networkId, name, version, status, impl, backendName, ports⟩ := n
  cases status <;> cases impl <;> rfl

/-- `decodeList` inverts element-wise encoding. -/
theorem decodeList_map {α : Type} (f : Json → Option α) (enc : α → Json)
    (h : ∀ x, f (enc x) = some x) :
    ∀ l : List α, decodeList f (l.map enc) = some l := by
  intro l
  induction l with
  | nil => rfl
  | cons a t ih => simp [decodeList, h, ih]

/-- `decodeNetwork` inverts `encodeNetwork`. -/
theorem decodeNetwork_enc (nw : Network) :
    decodeNetwork (encodeNetwork nw) = some nw := by
  obtain ⟨id, name, status, path, amm, ⟨btc, ln⟩⟩ := nw
  cases status <;>
    simp [encodeNetwork, decodeNetwork, Json.getField, List.lookup,
      Json.asNat?, Json.asString?, Json.asArr?, encodeStatus, decodeStatus,
      decodeList_map decodeBitcoinNode encodeBitcoinNode decodeBitcoinNode_enc,
      decodeList_map decodeLightningNode encodeLightningNode decodeLightningNode_enc]

/-- `decodeNetworksFile` inverts `encodeNetworksFile`: the parse of the
serialized document is the document. -/
theorem decodeNetworksFile_enc (f : NetworksFile) :
    decodeNetworksFile (encodeNetworksFile f) = some f := by
  obtain ⟨version, networks, charts⟩ := f
  simp [encodeNetworksFile, decodeNetworksFile, Json.getField, List.lookup,
    Json.asString?, Json.asArr?, Json.asObj?,
    decodeList_map decodeNetwork encodeNetwork decodeNetwork_enc]

/-- C9: for a document whose schema version equals the running application's
version, `saveNetworks` followed by `loadNetworks` returns the same document
(in production the migrate-and-persist branch is skipped; outside production
the zero-step migration leaves the document unchanged). -/
theorem saveNetworks_loadNetworks_roundtrip (fs : FileSystemState) (isProd : Bool)
    (data : NetworksFile) (hv : data.version = APP_VERSION) :
    ∃ fs', loadNetworks isProd (saveNetworks fs data) = .ok (data, fs') := by
  refine ⟨saveNetworks fs data, ?_⟩
  cases isProd with
  | false =>
    simp [loadNetworks, saveNetworks, decodeNetworksFile_enc data,
      migrateNetworksFile, hv]
  | true =>
    simp [loadNetworks, saveNetworks, decodeNetworksFile_enc data, hv]

/-- Witness for C9 at a concrete current-version document. -/
theorem saveNetworks_loadNetworks_roundtrip_witness :
    sampleNetworksFile.version = APP_VERSION ∧
    ∃ fs', loadNetworks true (saveNetworks ⟨none, none⟩ sampleNetworksFile) =
      .ok (sampleNetworksFile, fs') :=
  ⟨rfl, saveNetworks_loadNetworks_roundtrip ⟨none, none⟩ true sampleNetworksFile rfl⟩
